import Mathlib

/-!
Shallow embedding of `src/slab_builder.py` (ceriasimtools).

The repository's own logic consists of four functions:
  * `ceria_primitive` (PrimitiveCellBuilder)
  * `ceria_crystallographic` (ConventionalCellBuilder)
  * `orthogonalize_111` (CellOrthogonalizer)
  * `slab` (SlabAssembler)

Every non-trivial geometric operation is delegated to an external
atomistic-structure library (ASE).  Those collaborators are modelled as an
opaque record of operations (`LibOps`) over the embedded structure type;
theorems that depend on a collaborator's documented contract take that
contract as an explicit hypothesis.  Real numbers of the Python code are
embedded as rationals, which is exact for every constant appearing in the
source (0.05, 0.6, 0.3, 0.5, lattice parameters, angles).
-/

namespace CeriaSim

/-- A Cartesian or fractional 3-vector (x, y, z). -/
abbrev Vec3 := ℚ × ℚ × ℚ

/-- A 3×3 lattice-vector matrix, row-major: row i is lattice vector i,
mirroring ASE's `cell` array (`cell[1, 0]` is `m10`). -/
structure Cell3 where
  m00 : ℚ
  m01 : ℚ
  m02 : ℚ
  m10 : ℚ
  m11 : ℚ
  m12 : ℚ
  m20 : ℚ
  m21 : ℚ
  m22 : ℚ
deriving DecidableEq, Repr

/-- Determinant of a `Cell3`. -/
def cellDet (c : Cell3) : ℚ :=
  c.m00 * (c.m11 * c.m22 - c.m12 * c.m21)
    - c.m01 * (c.m10 * c.m22 - c.m12 * c.m20)
    + c.m02 * (c.m10 * c.m21 - c.m11 * c.m20)

/-- Inverse of a `Cell3` via the adjugate; meaningful when `cellDet c ≠ 0`. -/
def invCell (c : Cell3) : Cell3 :=
  let d := cellDet c
  ⟨(c.m11 * c.m22 - c.m12 * c.m21) / d,
   (-(c.m01 * c.m22 - c.m02 * c.m21)) / d,
   (c.m01 * c.m12 - c.m02 * c.m11) / d,
   (-(c.m10 * c.m22 - c.m12 * c.m20)) / d,
   (c.m00 * c.m22 - c.m02 * c.m20) / d,
   (-(c.m00 * c.m12 - c.m02 * c.m10)) / d,
   (c.m10 * c.m21 - c.m11 * c.m20) / d,
   (-(c.m00 * c.m21 - c.m01 * c.m20)) / d,
   (c.m00 * c.m11 - c.m01 * c.m10) / d⟩

/-- Row vector times matrix, the ASE convention `positions = scaled @ cell`. -/
def mulRow (v : Vec3) (c : Cell3) : Vec3 :=
  (v.1 * c.m00 + v.2.1 * c.m10 + v.2.2 * c.m20,
   v.1 * c.m01 + v.2.1 * c.m11 + v.2.2 * c.m21,
   v.1 * c.m02 + v.2.1 * c.m12 + v.2.2 * c.m22)

/-- The embedded `ase.Atoms` object: ordered species labels, Cartesian
positions, lattice matrix, per-axis periodic-boundary flags. -/
structure Atoms where
  symbols : List String
  positions : List Vec3
  cell : Cell3
  pbc : Bool × Bool × Bool
deriving DecidableEq, Repr

/-- Number of atoms (`len(atoms)`). -/
def natoms (s : Atoms) : ℕ := s.positions.length

/-- Embeds `atoms.get_scaled_positions()`: fractional coordinates w.r.t. the
current cell, `scaled = positions @ cell⁻¹`. -/
def scaled_positions (s : Atoms) : List Vec3 :=
  s.positions.map (fun p => mulRow p (invCell s.cell))

/-- Embeds `atoms.set_scaled_positions(sp)`: Cartesian positions become
`sp @ cell`. -/
def set_scaled_positions (s : Atoms) (sp : List Vec3) : Atoms :=
  { s with positions := sp.map (fun v => mulRow v s.cell) }

/-- Embeds `ceria_primitive` from `src/slab_builder.py` lines 11-20.  The call to
the external constructor `ase.build.bulk(name='CeO2',
crystalstructure='fluorite', a=cellparam)` is the parameter `ceria`; the
function then overrides the first scaled position with (0.5, 0.5, 0.5). -/
def ceria_primitive (ceria : Atoms) : Atoms :=
  let scaled_pos := scaled_positions ceria
  let scaled_pos := scaled_pos.set 0 (1/2, 1/2, 1/2)
  set_scaled_positions ceria scaled_pos

/-- Diagonal (cubic) cell, ASE's reading of `cell=[a, a, a]`. -/
def diagCell (a : ℚ) : Cell3 := ⟨a, 0, 0, 0, a, 0, 0, 0, a⟩

/-- The 12 scaled positions listed in `ceria_crystallographic`. -/
def ceriaScaledTable : List Vec3 :=
  [(0, 0, 0),
   (1/2, 1/2, 0),
   (1/2, 0, 1/2),
   (0, 1/2, 1/2),
   (1/4, 1/4, 1/4),
   (1/4, 1/4, 3/4),
   (1/4, 3/4, 1/4),
   (3/4, 1/4, 1/4),
   (1/4, 3/4, 3/4),
   (3/4, 1/4, 3/4),
   (3/4, 3/4, 1/4),
   (3/4, 3/4, 3/4)]

/-- Embeds `ceria_crystallographic` from `src/slab_builder.py` lines 33-53:
`Atoms(symbols='CeCeCeCeOOOOOOOO', scaled_positions=..., cell=[a,a,a],
pbc=True)`.  ASE stores Cartesian positions `scaled @ cell`. -/
def ceria_crystallographic (cellparam : ℚ) : Atoms :=
  { symbols := ["Ce", "Ce", "Ce", "Ce", "O", "O", "O", "O", "O", "O", "O", "O"],
    positions := ceriaScaledTable.map (fun v => mulRow v (diagCell cellparam)),
    cell := diagCell cellparam,
    pbc := (true, true, true) }

/-- Round trip `v ↦ v @ cell ↦ (v @ cell) @ cell⁻¹` is the identity when
the cell is invertible. -/
theorem mulRow_mulRow_invCell (c : Cell3) (hd : cellDet c ≠ 0) (v : Vec3) :
    mulRow (mulRow v c) (invCell c) = v := by
  obtain ⟨x, y, z⟩ := v
  obtain ⟨a, b, c', d, e, f, g, h, i⟩ := c
  simp only [cellDet] at hd
  simp only [mulRow, invCell, cellDet, Prod.mk.injEq]
  refine ⟨?_, ?_, ?_⟩ <;> field_simp <;> ring

/-- Round trip `v ↦ v @ cell⁻¹ ↦ (v @ cell⁻¹) @ cell` is the identity when
the cell is invertible. -/
theorem mulRow_invCell_mulRow (c : Cell3) (hd : cellDet c ≠ 0) (v : Vec3) :
    mulRow (mulRow v (invCell c)) c = v := by
  obtain ⟨x, y, z⟩ := v
  obtain ⟨a, b, c', d, e, f, g, h, i⟩ := c
  simp only [cellDet] at hd
  simp only [mulRow, invCell, cellDet, Prod.mk.injEq]
  refine ⟨?_, ?_, ?_⟩ <;> field_simp <;> ring

/-- One coordinate of the wrap loop body of `orthogonalize_111`
(lines 74-77): `if x >= L - 0.05: x -= L`. -/
def wrapCoord (L x : ℚ) : ℚ := if x ≥ L - 0.05 then x - L else x

/-- Embeds `orthogonalize_111` from `src/slab_builder.py` lines 66-81: zero the
`cell[1, 0]` entry, then for every atom and every axis subtract the
diagonal length when the coordinate is at or above it minus 0.05.  The
Python loop reads the diagonal of the already-edited cell, whose diagonal
equals the original one. -/
def orthogonalize_111 (slab : Atoms) : Atoms :=
  let cell := slab.cell
  let cell := { cell with m10 := 0 }
  let positions := slab.positions.map (fun p =>
    (wrapCoord cell.m00 p.1, wrapCoord cell.m11 p.2.1, wrapCoord cell.m22 p.2.2))
  { slab with cell := cell, positions := positions }

/-- Coordinate of a 3-vector along Cartesian axis `d` (0 = x, 1 = y, 2 = z). -/
def coordAt (d : Fin 3) (v : Vec3) : ℚ :=
  if d.val = 0 then v.1 else if d.val = 1 then v.2.1 else v.2.2

/-- Diagonal lattice length along axis `d`: `cell[d, d]`. -/
def diagAt (d : Fin 3) (c : Cell3) : ℚ :=
  if d.val = 0 then c.m00 else if d.val = 1 then c.m11 else c.m22

/-- A one-atom structure sitting one full lattice length above the box on
every axis, for the C8 witness. -/
def tallAtoms : Atoms := ⟨["O"], [(2, 2, 2)], diagCell 1, (true, true, true)⟩

/-- The collaborator operations of the external atomistic-structure
library (ASE), consumed through their documented interfaces: bulk
fluorite constructor, surface cutter, supercell tiler, molecule
constructor, rigid rotation, adsorbate placer, stable atom sorter. -/
structure LibOps where
  bulk_fluorite : ℚ → Atoms
  surface : Atoms → ℤ × ℤ × ℤ → ℤ → ℚ → Atoms
  repeat_sc : Atoms → ℤ × ℤ × ℤ → Atoms
  molecule : String → Atoms
  rotate : Atoms → ℚ → String → Atoms
  add_adsorbate : Atoms → Atoms → ℚ → ℚ × ℚ → Atoms
  sort : Atoms → Atoms

/-- Bulk-cell selection in `slab`, lines 104-107: the primitive cell for
`indices == (1, 1, 1)`, the crystallographic cell otherwise. -/
def slabBulk (ops : LibOps) (cellparam : ℚ) (indices : ℤ × ℤ × ℤ) : Atoms :=
  if indices = (1, 1, 1) then ceria_primitive (ops.bulk_fluorite cellparam)
  else ceria_crystallographic cellparam

/-- The surface-cut and tiled slab of `slab`, lines 109-116:
`surface(lattice=ceria, indices, layers, vacuum)` followed by
`slab.repeat(repetitions)`. -/
def tiledSlab (ops : LibOps) (cellparam vacuum : ℚ) (layers : ℤ)
    (repetitions indices : ℤ × ℤ × ℤ) : Atoms :=
  ops.repeat_sc (ops.surface (slabBulk ops cellparam indices) indices layers vacuum)
    repetitions

/-- Python's `slab[-3]` position access: in bounds exactly when the
structure has at least 3 atoms, else an `IndexError`, modelled as `none`. -/
def atomNegThree (s : Atoms) : Option Vec3 :=
  if h : 3 ≤ s.positions.length then
    some (s.positions.get ⟨s.positions.length - 3, by omega⟩)
  else none

/-- Embeds `slab` from `src/slab_builder.py` lines 84-133 (defaults:
`cellparam=5.429832, vacuum=10, layers=4, repetitions=(1,1,1),
indices=(1,1,1), waterspecies='a'`).  The no-op line
`slab.get_chemical_symbols()` is omitted.  A `none` result models the
`IndexError` that `slab[-3]` raises on a slab of fewer than 3 atoms. -/
def slab (ops : LibOps) (cellparam vacuum : ℚ) (layers : ℤ)
    (repetitions indices : ℤ × ℤ × ℤ) (waterspecies : String) : Option Atoms :=
  let slab0 := tiledSlab ops cellparam vacuum layers repetitions indices
  if waterspecies = "a" then
    match atomNegThree slab0 with
    | none => none
    | some anchor =>
      let water := ops.molecule "H2O"
      let water := ops.rotate water 80 "z"
      let water := ops.rotate water (-60) "x"
      let water := ops.rotate water 50 "y"
      let slab1 := ops.add_adsorbate slab0 water 2 (anchor.1 + 0.6, anchor.2.1 - 0.3)
      some (ops.sort slab1)
  else
    some (ops.sort slab0)

/-- A concrete 3-atom water structure (O, H, H), standing in for
`ase.build.molecule('H2O')` in witness instantiations. -/
def waterModel : Atoms :=
  ⟨["O", "H", "H"], [(0, 0, 0), (0, 1, 0), (1, 0, 0)], diagCell 1, (false, false, false)⟩

/-- A concrete 2-atom fluorite bulk structure at lattice parameter `a`,
standing in for the external bulk constructor in witness instantiations. -/
def bulkModel (a : ℚ) : Atoms :=
  ⟨["Ce", "O"], [(0, 0, 0), (a / 4, a / 4, a / 4)], diagCell a, (true, true, true)⟩

/-- A concrete `LibOps` instance satisfying the documented collaborator
contracts, used to discharge hypotheses in witness theorems. -/
def opsModel : LibOps :=
  ⟨bulkModel,
   fun b _ _ _ => b,
   fun s _ => s,
   fun _ => waterModel,
   fun a _ _ => a,
   fun s a _ _ => ⟨s.symbols ++ a.symbols, s.positions ++ a.positions, s.cell, s.pbc⟩,
   fun s => s⟩

/-- Unfolding of the lattice edit of `orthogonalize_111`. -/
theorem orthogonalize_111_cell (s : Atoms) :
    (orthogonalize_111 s).cell = { s.cell with m10 := 0 } := rfl

/-- Unfolding of the position wrap of `orthogonalize_111`: the edited cell
has the same diagonal as the original. -/
theorem orthogonalize_111_positions (s : Atoms) :
    (orthogonalize_111 s).positions =
      s.positions.map (fun p =>
        (wrapCoord s.cell.m00 p.1, wrapCoord s.cell.m11 p.2.1,
         wrapCoord s.cell.m22 p.2.2)) := rfl

/-- Function `ceria_primitive` never changes the number of atoms. -/
theorem natoms_ceria_primitive (b : Atoms) :
    natoms (ceria_primitive b) = natoms b := by
  simp [natoms, ceria_primitive, set_scaled_positions, scaled_positions]

/-- The conventional cell always has 12 atoms. -/
theorem natoms_ceria_crystallographic (cp : ℚ) :
    natoms (ceria_crystallographic cp) = 12 := rfl

/-- C1: for an invertible-lattice bulk structure of 2 atoms (the external
fluorite constructor's documented output), `ceria_primitive` returns
exactly 2 atoms, atom 0 has fractional coordinate exactly (1/2, 1/2, 1/2)
in the structure's lattice, and no other atom, nor the species list, the
lattice, or the periodicity flags, is changed. -/
theorem ceria_primitive_sets_atom0 (b : Atoms) (h2 : natoms b = 2)
    (hdet : cellDet b.cell ≠ 0) :
    natoms (ceria_primitive b) = 2 ∧
    (scaled_positions (ceria_primitive b))[0]? = some (1/2, 1/2, 1/2) ∧
    (∀ i, i ≠ 0 → (ceria_primitive b).positions[i]? = b.positions[i]?) ∧
    (ceria_primitive b).symbols = b.symbols ∧
    (ceria_primitive b).cell = b.cell ∧
    (ceria_primitive b).pbc = b.pbc := by
  obtain ⟨sym, pos, cell, pbc⟩ := b
  simp only [natoms] at h2
  obtain ⟨p0, p1, rfl⟩ := List.length_eq_two.mp h2
  refine ⟨rfl, ?_, ?_, rfl, rfl, rfl⟩
  · simp [ceria_primitive, scaled_positions, set_scaled_positions,
      mulRow_mulRow_invCell _ hdet]
  · intro i hi
    match i with
    | 0 => exact absurd rfl hi
    | 1 =>
      simp [ceria_primitive, scaled_positions, set_scaled_positions,
        mulRow_invCell_mulRow _ hdet]
    | (n + 2) =>
      simp [ceria_primitive, scaled_positions, set_scaled_positions]

/-- C1 witness: the theorem applied to a concrete 2-atom bulk structure. -/
theorem ceria_primitive_sets_atom0_witness :
    natoms (bulkModel 1) = 2 ∧ cellDet (bulkModel 1).cell ≠ 0 ∧
    (scaled_positions (ceria_primitive (bulkModel 1)))[0]? = some (1/2, 1/2, 1/2) :=
  ⟨rfl, by norm_num [bulkModel, diagCell, cellDet],
   (ceria_primitive_sets_atom0 (bulkModel 1) rfl
      (by norm_num [bulkModel, diagCell, cellDet])).2.1⟩

/-- C2: for every positive `cellparam`, `ceria_crystallographic` returns
exactly 12 atoms, 4 labeled Ce and 8 labeled O, with fractional
coordinates equal to the fixed table, a cubic lattice with all diagonal
entries `cellparam` and zero off-diagonals, and periodic boundaries on
all three axes. -/
theorem ceria_crystallographic_table (cp : ℚ) (hcp : 0 < cp) :
    natoms (ceria_crystallographic cp) = 12 ∧
    (ceria_crystallographic cp).symbols =
      ["Ce", "Ce", "Ce", "Ce", "O", "O", "O", "O", "O", "O", "O", "O"] ∧
    (ceria_crystallographic cp).symbols.count "Ce" = 4 ∧
    (ceria_crystallographic cp).symbols.count "O" = 8 ∧
    scaled_positions (ceria_crystallographic cp) = ceriaScaledTable ∧
    (ceria_crystallographic cp).cell.m00 = cp ∧
    (ceria_crystallographic cp).cell.m11 = cp ∧
    (ceria_crystallographic cp).cell.m22 = cp ∧
    (ceria_crystallographic cp).cell.m01 = 0 ∧
    (ceria_crystallographic cp).cell.m02 = 0 ∧
    (ceria_crystallographic cp).cell.m10 = 0 ∧
    (ceria_crystallographic cp).cell.m12 = 0 ∧
    (ceria_crystallographic cp).cell.m20 = 0 ∧
    (ceria_crystallographic cp).cell.m21 = 0 ∧
    (ceria_crystallographic cp).pbc = (true, true, true) := by
  have hdet : cellDet (diagCell cp) ≠ 0 := by
    have : cellDet (diagCell cp) = cp ^ 3 := by
      simp [cellDet, diagCell]; ring
    rw [this]
    exact pow_ne_zero 3 (ne_of_gt hcp)
  refine ⟨rfl, rfl, rfl, rfl, ?_, rfl, rfl, rfl, rfl, rfl, rfl, rfl,
    rfl, rfl, rfl⟩
  show (ceriaScaledTable.map (fun v => mulRow v (diagCell cp))).map
      (fun p => mulRow p (invCell (diagCell cp))) = ceriaScaledTable
  rw [List.map_map]
  have h : ∀ v ∈ ceriaScaledTable,
      ((fun p => mulRow p (invCell (diagCell cp))) ∘
        (fun v => mulRow v (diagCell cp))) v = id v :=
    fun v _ => mulRow_mulRow_invCell _ hdet v
  rw [List.map_congr_left h, List.map_id]

/-- C2 witness: the theorem applied at `cellparam = 1`. -/
theorem ceria_crystallographic_table_witness :
    (0 : ℚ) < 1 ∧ scaled_positions (ceria_crystallographic 1) = ceriaScaledTable :=
  ⟨zero_lt_one, (ceria_crystallographic_table 1 zero_lt_one).2.2.2.2.1⟩

/-- C3: `orthogonalize_111` zeroes the (1,0) lattice entry and rewrites
every coordinate through `wrapCoord`, which subtracts the diagonal length
exactly when the coordinate is at or above that length minus 0.05; an
atom at `L - 0.01` along an axis of diagonal length `L` ends at `-0.01`,
and one at `L - 0.5` is left unchanged. -/
theorem orthogonalize_111_wrap_rule (s : Atoms) (i : ℕ) (p : Vec3)
    (hp : s.positions[i]? = some p) :
    (orthogonalize_111 s).cell.m10 = 0 ∧
    (orthogonalize_111 s).positions[i]? =
      some (wrapCoord s.cell.m00 p.1, wrapCoord s.cell.m11 p.2.1,
        wrapCoord s.cell.m22 p.2.2) ∧
    (∀ L x : ℚ, wrapCoord L x = if x ≥ L - 0.05 then x - L else x) ∧
    (∀ L : ℚ, wrapCoord L (L - 0.01) = -0.01) ∧
    (∀ L : ℚ, wrapCoord L (L - 0.5) = L - 0.5) := by
  refine ⟨rfl, ?_, fun L x => rfl, ?_, ?_⟩
  · rw [orthogonalize_111_positions, List.getElem?_map, hp]
    rfl
  · intro L
    rw [wrapCoord, if_pos (by linarith [show (0.01 : ℚ) ≤ 0.05 by norm_num])]
    ring
  · intro L
    rw [wrapCoord, if_neg (fun h => by linarith [show (0.05 : ℚ) < 0.5 from by norm_num])]

/-- C3 witness: the wrap rule applied to a concrete structure. -/
theorem orthogonalize_111_wrap_rule_witness :
    (bulkModel 1).positions[0]? = some ((0 : ℚ), (0 : ℚ), (0 : ℚ)) ∧
    (orthogonalize_111 (bulkModel 1)).positions[0]? =
      some (wrapCoord (bulkModel 1).cell.m00 0, wrapCoord (bulkModel 1).cell.m11 0,
        wrapCoord (bulkModel 1).cell.m22 0) :=
  ⟨rfl, (orthogonalize_111_wrap_rule (bulkModel 1) 0 (0, 0, 0) rfl).2.1⟩

/-- C7: one call to `orthogonalize_111` zeroes the (1,0) lattice entry,
and when its output's coordinates all lie strictly below the respective
diagonal length minus 0.05 (already wrapped), a second call changes
nothing: neither the lattice nor any position. -/
theorem orthogonalize_111_idem (s : Atoms)
    (hw : ∀ p ∈ (orthogonalize_111 s).positions,
      p.1 < (orthogonalize_111 s).cell.m00 - 0.05 ∧
      p.2.1 < (orthogonalize_111 s).cell.m11 - 0.05 ∧
      p.2.2 < (orthogonalize_111 s).cell.m22 - 0.05) :
    (orthogonalize_111 s).cell.m10 = 0 ∧
    orthogonalize_111 (orthogonalize_111 s) = orthogonalize_111 s := by
  refine ⟨rfl, ?_⟩
  have hmap : ∀ p ∈ (orthogonalize_111 s).positions,
      (wrapCoord (orthogonalize_111 s).cell.m00 p.1,
       wrapCoord (orthogonalize_111 s).cell.m11 p.2.1,
       wrapCoord (orthogonalize_111 s).cell.m22 p.2.2) = p := by
    intro p hp
    obtain ⟨h1, h2, h3⟩ := hw p hp
    obtain ⟨x, y, z⟩ := p
    simp only [wrapCoord]
    rw [if_neg (not_le.mpr h1), if_neg (not_le.mpr h2), if_neg (not_le.mpr h3)]
  have hpos : (orthogonalize_111 (orthogonalize_111 s)).positions =
      (orthogonalize_111 s).positions := by
    rw [orthogonalize_111_positions (orthogonalize_111 s)]
    have := List.map_congr_left (g := id) (fun p hp => hmap p hp)
    rw [this, List.map_id]
  have hcell : (orthogonalize_111 (orthogonalize_111 s)).cell =
      (orthogonalize_111 s).cell := rfl
  have hsym : (orthogonalize_111 (orthogonalize_111 s)).symbols =
      (orthogonalize_111 s).symbols := rfl
  have hpbc : (orthogonalize_111 (orthogonalize_111 s)).pbc =
      (orthogonalize_111 s).pbc := rfl
  cases horth : orthogonalize_111 (orthogonalize_111 s)
  cases horth2 : orthogonalize_111 s
  simp_all

/-- C7 witness: a concrete structure whose orthogonalized form is wrapped. -/
theorem orthogonalize_111_idem_witness :
    (∀ p ∈ (orthogonalize_111 (bulkModel 1)).positions,
      p.1 < (orthogonalize_111 (bulkModel 1)).cell.m00 - 0.05 ∧
      p.2.1 < (orthogonalize_111 (bulkModel 1)).cell.m11 - 0.05 ∧
      p.2.2 < (orthogonalize_111 (bulkModel 1)).cell.m22 - 0.05) ∧
    orthogonalize_111 (orthogonalize_111 (bulkModel 1)) =
      orthogonalize_111 (bulkModel 1) := by
  have hw : ∀ p ∈ (orthogonalize_111 (bulkModel 1)).positions,
      p.1 < (orthogonalize_111 (bulkModel 1)).cell.m00 - 0.05 ∧
      p.2.1 < (orthogonalize_111 (bulkModel 1)).cell.m11 - 0.05 ∧
      p.2.2 < (orthogonalize_111 (bulkModel 1)).cell.m22 - 0.05 := by
    intro p hp
    rw [orthogonalize_111_positions] at hp
    simp only [bulkModel, diagCell, List.map_cons, List.map_nil, List.mem_cons,
      List.not_mem_nil, or_false, wrapCoord] at hp
    rcases hp with h | h <;> subst h <;> norm_num [orthogonalize_111_cell, bulkModel, diagCell]
  exact ⟨hw, (orthogonalize_111_idem (bulkModel 1) hw).2⟩

/-- C8: each coordinate is decremented at most once per call (`wrapCoord`
either leaves a coordinate alone or subtracts the length exactly once),
so for every axis `d` whose diagonal length `L` is positive, an atom at
or above `2L - 0.05` along `d` still sits at or above `L - 0.05` along
`d` after `orthogonalize_111` — the wrap is not a minimum-image
reduction. -/
theorem orthogonalize_111_single_wrap (s : Atoms) (i : ℕ) (p : Vec3)
    (hp : s.positions[i]? = some p) (d : Fin 3)
    (hL : 0 < diagAt d s.cell)
    (hx : 2 * diagAt d s.cell - 0.05 ≤ coordAt d p) :
    (∀ L x : ℚ, wrapCoord L x = x ∨ wrapCoord L x = x - L) ∧
    ∃ q, (orthogonalize_111 s).positions[i]? = some q ∧
      coordAt d q = coordAt d p - diagAt d s.cell ∧
      diagAt d s.cell - 0.05 ≤ coordAt d q := by
  constructor
  · intro L x
    rw [wrapCoord]
    split
    · exact Or.inr rfl
    · exact Or.inl rfl
  · refine ⟨(wrapCoord s.cell.m00 p.1, wrapCoord s.cell.m11 p.2.1,
      wrapCoord s.cell.m22 p.2.2), ?_, ?_, ?_⟩
    · rw [orthogonalize_111_positions, List.getElem?_map, hp]
      rfl
    · fin_cases d <;>
        simp only [coordAt, diagAt] at hx hL ⊢ <;>
        norm_num at hx hL ⊢ <;>
        rw [wrapCoord, if_pos (by linarith)]
    · fin_cases d <;>
        simp only [coordAt, diagAt] at hx hL ⊢ <;>
        norm_num at hx hL ⊢ <;>
        · rw [wrapCoord, if_pos (by linarith)]
          linarith

/-- C8 witness: the per-axis single-wrap bound applied to `tallAtoms`
along the z axis. -/
theorem orthogonalize_111_single_wrap_witness :
    tallAtoms.positions[0]? = some ((2 : ℚ), (2 : ℚ), (2 : ℚ)) ∧
    (0 : ℚ) < diagAt 2 tallAtoms.cell ∧
    2 * diagAt 2 tallAtoms.cell - 0.05 ≤ coordAt 2 ((2 : ℚ), (2 : ℚ), (2 : ℚ)) ∧
    ((∀ L x : ℚ, wrapCoord L x = x ∨ wrapCoord L x = x - L) ∧
      ∃ q, (orthogonalize_111 tallAtoms).positions[0]? = some q ∧
        coordAt 2 q = coordAt 2 ((2 : ℚ), (2 : ℚ), (2 : ℚ)) - diagAt 2 tallAtoms.cell ∧
        diagAt 2 tallAtoms.cell - 0.05 ≤ coordAt 2 q) :=
  ⟨rfl, by norm_num [diagAt, tallAtoms, diagCell],
   by norm_num [diagAt, coordAt, tallAtoms, diagCell],
   orthogonalize_111_single_wrap tallAtoms 0 (2, 2, 2) rfl 2
     (by norm_num [diagAt, tallAtoms, diagCell])
     (by norm_num [diagAt, coordAt, tallAtoms, diagCell])⟩

/-- C4: `slab` feeds the surface cutter the 2-atom primitive cell exactly
when `indices = (1, 1, 1)` (given the external fluorite constructor's
documented 2-atom output) and the 12-atom conventional cell for every
other indices value. -/
theorem slabBulk_selection (ops : LibOps) (cp : ℚ) (indices : ℤ × ℤ × ℤ)
    (hb : natoms (ops.bulk_fluorite cp) = 2) :
    (indices = (1, 1, 1) →
      slabBulk ops cp indices = ceria_primitive (ops.bulk_fluorite cp) ∧
      natoms (slabBulk ops cp indices) = 2) ∧
    (indices ≠ (1, 1, 1) →
      slabBulk ops cp indices = ceria_crystallographic cp ∧
      natoms (slabBulk ops cp indices) = 12) := by
  constructor
  · intro h
    subst h
    refine ⟨if_pos rfl, ?_⟩
    rw [slabBulk, if_pos rfl, natoms_ceria_primitive]
    exact hb
  · intro h
    refine ⟨if_neg h, ?_⟩
    rw [slabBulk, if_neg h]
    rfl

/-- C4 witness: both selection branches at concrete indices. -/
theorem slabBulk_selection_witness :
    (slabBulk opsModel 1 (1, 1, 1) = ceria_primitive (opsModel.bulk_fluorite 1) ∧
      natoms (slabBulk opsModel 1 (1, 1, 1)) = 2) ∧
    (slabBulk opsModel 1 (1, 0, 0) = ceria_crystallographic 1 ∧
      natoms (slabBulk opsModel 1 (1, 0, 0)) = 12) :=
  ⟨(slabBulk_selection opsModel 1 (1, 1, 1) rfl).1 rfl,
   (slabBulk_selection opsModel 1 (1, 0, 0) rfl).2 (by decide)⟩

/-- C5: under the documented collaborator contracts (water molecule has
the 3 atoms O, H, H; rotation preserves atoms; the adsorbate placer
appends the adsorbate's atoms; sorting permutes), `slab` with
`waterspecies = "a"` returns exactly 3 more atoms than with any
adsorption-skipping value, and the extra atoms are exactly one O and two
H, absent from the no-adsorption result. -/
theorem slab_water_three_more (ops : LibOps) (cp v : ℚ) (l : ℤ)
    (reps ind : ℤ × ℤ × ℤ) (ws : String) (hws : ws ≠ "a")
    (hmol : (ops.molecule "H2O").symbols = ["O", "H", "H"])
    (hmoln : natoms (ops.molecule "H2O") = 3)
    (hrot : ∀ a ang ax, (ops.rotate a ang ax).symbols = a.symbols ∧
      natoms (ops.rotate a ang ax) = natoms a)
    (hadd : ∀ s a h pos,
      (ops.add_adsorbate s a h pos).symbols = s.symbols ++ a.symbols ∧
      natoms (ops.add_adsorbate s a h pos) = natoms s + natoms a)
    (hsort : ∀ s, (ops.sort s).symbols.Perm s.symbols ∧
      natoms (ops.sort s) = natoms s)
    (h3 : 3 ≤ natoms (tiledSlab ops cp v l reps ind)) :
    ∃ sa sn, slab ops cp v l reps ind "a" = some sa ∧
      slab ops cp v l reps ind ws = some sn ∧
      natoms sa = natoms sn + 3 ∧
      sa.symbols.Perm (sn.symbols ++ ["O", "H", "H"]) := by
  have h3' : 3 ≤ (tiledSlab ops cp v l reps ind).positions.length := h3
  have hanchor : atomNegThree (tiledSlab ops cp v l reps ind) =
      some ((tiledSlab ops cp v l reps ind).positions.get
        ⟨(tiledSlab ops cp v l reps ind).positions.length - 3, by omega⟩) :=
    dif_pos h3'
  set t := tiledSlab ops cp v l reps ind with ht
  set anchor := t.positions.get ⟨t.positions.length - 3, by omega⟩ with hanchordef
  set w3 := ops.rotate (ops.rotate (ops.rotate (ops.molecule "H2O") 80 "z")
      (-60) "x") 50 "y" with hw3
  have hslabA : slab ops cp v l reps ind "a" =
      some (ops.sort (ops.add_adsorbate t w3 2 (anchor.1 + 0.6, anchor.2.1 - 0.3))) := by
    rw [slab, if_pos rfl, ← ht, hanchor]
  have hslabN : slab ops cp v l reps ind ws = some (ops.sort t) := by
    rw [slab, if_neg hws]
  refine ⟨_, _, hslabA, hslabN, ?_, ?_⟩
  · have hw3n : natoms w3 = 3 := by
      rw [hw3, (hrot _ _ _).2, (hrot _ _ _).2, (hrot _ _ _).2, hmoln]
    rw [(hsort _).2, (hsort _).2, (hadd _ _ _ _).2, hw3n]
  · have hw3s : w3.symbols = ["O", "H", "H"] := by
      rw [hw3, (hrot _ _ _).1, (hrot _ _ _).1, (hrot _ _ _).1, hmol]
    have hA : (ops.sort (ops.add_adsorbate t w3 2
        (anchor.1 + 0.6, anchor.2.1 - 0.3))).symbols.Perm
        (t.symbols ++ ["O", "H", "H"]) := by
      have := (hsort (ops.add_adsorbate t w3 2 (anchor.1 + 0.6, anchor.2.1 - 0.3))).1
      rw [(hadd _ _ _ _).1, hw3s] at this
      exact this
    have hN : ((ops.sort t).symbols ++ ["O", "H", "H"]).Perm
        (t.symbols ++ ["O", "H", "H"]) :=
      (hsort t).1.append_right _
    exact hA.trans hN.symm

/-- C5 witness: the theorem applied to the concrete collaborator model at
indices (1,0,0), comparing `waterspecies = "a"` against `"n"`. -/
theorem slab_water_three_more_witness :
    ("n" : String) ≠ "a" ∧
    3 ≤ natoms (tiledSlab opsModel 1 10 4 (1, 1, 1) (1, 0, 0)) ∧
    ∃ sa sn, slab opsModel 1 10 4 (1, 1, 1) (1, 0, 0) "a" = some sa ∧
      slab opsModel 1 10 4 (1, 1, 1) (1, 0, 0) "n" = some sn ∧
      natoms sa = natoms sn + 3 ∧
      sa.symbols.Perm (sn.symbols ++ ["O", "H", "H"]) :=
  ⟨by decide, by decide,
   slab_water_three_more opsModel 1 10 4 (1, 1, 1) (1, 0, 0) "n" (by decide)
     rfl rfl (fun a ang ax => ⟨rfl, rfl⟩)
     (fun s a h pos => ⟨rfl, by simp [opsModel, natoms]⟩)
     (fun s => ⟨List.Perm.refl _, rfl⟩) (by decide)⟩

/-- C6: every `waterspecies` value other than "a" silently takes the
no-water path: the result is exactly the sorted tiled slab with no
adsorption step, identical to the `"n"` result, and never the error
value. -/
theorem slab_no_water_fallthrough (ops : LibOps) (cp v : ℚ) (l : ℤ)
    (reps ind : ℤ × ℤ × ℤ) (ws : String) (hws : ws ≠ "a") :
    slab ops cp v l reps ind ws =
      some (ops.sort (tiledSlab ops cp v l reps ind)) ∧
    slab ops cp v l reps ind ws = slab ops cp v l reps ind "n" := by
  have h1 : slab ops cp v l reps ind ws =
      some (ops.sort (tiledSlab ops cp v l reps ind)) := by
    rw [slab, if_neg hws]
  have h2 : slab ops cp v l reps ind "n" =
      some (ops.sort (tiledSlab ops cp v l reps ind)) := by
    rw [slab, if_neg (by decide)]
  exact ⟨h1, h1.trans h2.symm⟩

/-- C6 witness: an unrecognized `waterspecies` string at concrete inputs. -/
theorem slab_no_water_fallthrough_witness :
    ("xyz" : String) ≠ "a" ∧
    slab opsModel 1 10 4 (1, 1, 1) (1, 0, 0) "xyz" =
      some (opsModel.sort (tiledSlab opsModel 1 10 4 (1, 1, 1) (1, 0, 0))) ∧
    slab opsModel 1 10 4 (1, 1, 1) (1, 0, 0) "xyz" =
      slab opsModel 1 10 4 (1, 1, 1) (1, 0, 0) "n" :=
  ⟨by decide,
   slab_no_water_fallthrough opsModel 1 10 4 (1, 1, 1) (1, 0, 0) "xyz" (by decide)⟩

/-- C9: with `waterspecies = "a"`, `slab` applies exactly three rotations
to the water molecule, in the order 80° about z, then -60° about x, then
50° about y, and hands the adsorbate placer height 2 and the lateral
position of the third-from-last atom offset by (+0.6, -0.3). -/
theorem slab_water_placement (ops : LibOps) (cp v : ℚ) (l : ℤ)
    (reps ind : ℤ × ℤ × ℤ)
    (h3 : 3 ≤ natoms (tiledSlab ops cp v l reps ind)) :
    ∃ anchor, atomNegThree (tiledSlab ops cp v l reps ind) = some anchor ∧
      slab ops cp v l reps ind "a" =
        some (ops.sort (ops.add_adsorbate (tiledSlab ops cp v l reps ind)
          (ops.rotate (ops.rotate (ops.rotate (ops.molecule "H2O") 80 "z")
            (-60) "x") 50 "y")
          2 (anchor.1 + 0.6, anchor.2.1 - 0.3))) := by
  have h3' : 3 ≤ (tiledSlab ops cp v l reps ind).positions.length := h3
  have hanchor : atomNegThree (tiledSlab ops cp v l reps ind) =
      some ((tiledSlab ops cp v l reps ind).positions.get
        ⟨(tiledSlab ops cp v l reps ind).positions.length - 3, by omega⟩) :=
    dif_pos h3'
  refine ⟨_, hanchor, ?_⟩
  rw [slab, if_pos rfl, hanchor]

/-- C9 witness: the placement equation at the concrete collaborator model. -/
theorem slab_water_placement_witness :
    3 ≤ natoms (tiledSlab opsModel 1 10 4 (1, 1, 1) (1, 0, 0)) ∧
    ∃ anchor, atomNegThree (tiledSlab opsModel 1 10 4 (1, 1, 1) (1, 0, 0)) =
        some anchor ∧
      slab opsModel 1 10 4 (1, 1, 1) (1, 0, 0) "a" =
        some (opsModel.sort (opsModel.add_adsorbate
          (tiledSlab opsModel 1 10 4 (1, 1, 1) (1, 0, 0))
          (opsModel.rotate (opsModel.rotate (opsModel.rotate
            (opsModel.molecule "H2O") 80 "z") (-60) "x") 50 "y")
          2 (anchor.1 + 0.6, anchor.2.1 - 0.3))) :=
  ⟨by decide, slab_water_placement opsModel 1 10 4 (1, 1, 1) (1, 0, 0) (by decide)⟩

/-- C10: with `waterspecies = "a"`, the `slab[-3]` anchor access succeeds
(and the whole call returns a structure rather than the IndexError value)
exactly when the surface-cut and tiled slab has at least 3 atoms. -/
theorem slab_anchor_in_bounds (ops : LibOps) (cp v : ℚ) (l : ℤ)
    (reps ind : ℤ × ℤ × ℤ) :
    (slab ops cp v l reps ind "a").isSome ↔
      3 ≤ natoms (tiledSlab ops cp v l reps ind) := by
  by_cases h : 3 ≤ (tiledSlab ops cp v l reps ind).positions.length
  · have hanchor : atomNegThree (tiledSlab ops cp v l reps ind) =
        some ((tiledSlab ops cp v l reps ind).positions.get
          ⟨(tiledSlab ops cp v l reps ind).positions.length - 3, by omega⟩) :=
      dif_pos h
    rw [slab, if_pos rfl, hanchor]
    simpa [natoms] using h
  · have hanchor : atomNegThree (tiledSlab ops cp v l reps ind) = none :=
      dif_neg h
    rw [slab, if_pos rfl, hanchor]
    simpa [natoms] using h

end CeriaSim
